import Mathlib

/-!
Shallow embedding of the validation, pipeline-compilation and
result-extraction core of the redhat-developer/buildv2-operator
(Shipwright build) repository, together with theorems settling the
claims about it.

Conventions of the embedding: Go pointer fields (`*T`) become `Option T`;
Go slices become `List`; a Go method that mutates its receiver through a
pointer and returns `error` becomes a pure function returning the updated
value together with `Option String` (the technical error).
-/

namespace v1beta1

/-- An environment variable entry of a build spec (`corev1.EnvVar`):
a name together with a literal value. -/
structure EnvVar where
  name : String
  value : String
deriving Repr, DecidableEq

/-- A parameter value supplied for a build strategy parameter. -/
structure ParamValue where
  name : String
  value : String
deriving Repr, DecidableEq

/-- The `spec.output` image descriptor: target image reference and the
optional push-secret name (`PushSecret *string`). -/
structure Image where
  image : String
  pushSecret : Option String
deriving Repr, DecidableEq

/-- The trigger configuration of a build spec (`Trigger`); its `When`
entries are kept abstract as plain strings, only presence matters to the
validation core. -/
structure Trigger where
  whenEntries : List String
deriving Repr, DecidableEq

/-- The git source of `spec.source`: URL plus the optional clone-secret
name (`CloneSecret *string`). -/
structure Git where
  url : String
  cloneSecret : Option String
deriving Repr, DecidableEq

/-- The `spec.source` descriptor; in v1beta1 the default source is always
git. -/
structure Source where
  git : Git
deriving Repr, DecidableEq

/-- The build specification (`BuildSpec`), restricted to the fields the
validation core reads. -/
structure BuildSpec where
  source : Source
  output : Image
  paramValues : List ParamValue
  env : List EnvVar
  timeout : Option Nat
  schedulerName : String
  trigger : Option Trigger
deriving Repr, DecidableEq

/-- A build's status record: optional reason code and optional message
(`Reason *BuildReason`, `Message *string`). -/
structure BuildStatus where
  reason : Option String
  message : Option String
deriving Repr, DecidableEq

/-- A `Build` resource: name, spec and status. -/
structure Build where
  name : String
  spec : BuildSpec
  status : BuildStatus
deriving Repr, DecidableEq

/-- `ReferencedBuild` of a BuildRun: either an inlined `BuildSpec`
(`Spec *BuildSpec`) or a reference to a Build by name (`Name *string`). -/
structure ReferencedBuild where
  spec : Option BuildSpec
  name : Option String
deriving Repr, DecidableEq

/-- The BuildRun specification: the referenced/inlined build plus the
override fields (`Output`, `ParamValues`, `Env`, `Timeout`). -/
structure BuildRunSpec where
  build : ReferencedBuild
  output : Option Image
  paramValues : List ParamValue
  env : List EnvVar
  timeout : Option Nat
deriving Repr, DecidableEq

/-- A `BuildRun` resource (only its spec is read by the field-conflict
checker). -/
structure BuildRun where
  spec : BuildRunSpec
deriving Repr, DecidableEq

/-- Status reason code `SchedulerNameNotValid`. -/
def SchedulerNameNotValid : String := "SchedulerNameNotValid"

/-- Status reason code `SpecSourceSecretRefNotFound`. -/
def SpecSourceSecretRefNotFound : String := "SpecSourceSecretRefNotFound"

/-- Status reason code `SpecOutputSecretRefNotFound`. -/
def SpecOutputSecretRefNotFound : String := "SpecOutputSecretRefNotFound"

/-- Status reason code `MultipleSecretRefNotFound`. -/
def MultipleSecretRefNotFound : String := "MultipleSecretRefNotFound"

end v1beta1

namespace resources

/-- Status reason code `resources.BuildRunNoRefOrSpec`. -/
def BuildRunNoRefOrSpec : String := "BuildRunNoRefOrSpec"

/-- Status reason code `resources.BuildRunAmbiguousBuild`. -/
def BuildRunAmbiguousBuild : String := "BuildRunAmbiguousBuild"

/-- Status reason code `resources.BuildRunBuildFieldOverrideForbidden`. -/
def BuildRunBuildFieldOverrideForbidden : String := "BuildRunBuildFieldOverrideForbidden"

end resources

namespace validate

open v1beta1

/-- `validate.BuildRunFields` (pkg/validate/validate.go): runs field
validations against a BuildRun to detect disallowed field combinations,
returning a (reason, message) pair, `("", "")` when there is no issue.
Each Go early `return` becomes a branch of the conditional cascade, in
source order. -/
def BuildRunFields (buildRun : BuildRun) : String × String :=
  if buildRun.spec.build.spec.isNone && buildRun.spec.build.name.isNone then
    (resources.BuildRunNoRefOrSpec,
      "no build referenced or specified, either 'buildRef' or 'buildSpec' has to be set")
  else
    match buildRun.spec.build.spec with
    | none => ("", "")
    | some inlineSpec =>
      if buildRun.spec.build.name.isSome then
        (resources.BuildRunAmbiguousBuild,
          "fields 'buildRef' and 'buildSpec' are mutually exclusive")
      else if buildRun.spec.output.isSome then
        (resources.BuildRunBuildFieldOverrideForbidden,
          "cannot use 'output' override and 'buildSpec' simultaneously")
      else if buildRun.spec.paramValues.length > 0 then
        (resources.BuildRunBuildFieldOverrideForbidden,
          "cannot use 'paramValues' override and 'buildSpec' simultaneously")
      else if buildRun.spec.env.length > 0 then
        (resources.BuildRunBuildFieldOverrideForbidden,
          "cannot use 'env' override and 'buildSpec' simultaneously")
      else if buildRun.spec.timeout.isSome then
        (resources.BuildRunBuildFieldOverrideForbidden,
          "cannot use 'timeout' override and 'buildSpec' simultaneously")
      else if inlineSpec.trigger.isSome then
        (resources.BuildRunBuildFieldOverrideForbidden,
          "cannot use 'triggers' override in the 'BuildRun', only allowed in the 'Build'")
      else
        ("", "")

end validate

section SanityChecks

open v1beta1 validate

def sampleSpec : BuildSpec :=
  { source := { git := { url := "https://example.com/repo.git", cloneSecret := none } }
    output := { image := "quay.io/example/image", pushSecret := none }
    paramValues := []
    env := []
    timeout := none
    schedulerName := ""
    trigger := none }

example :
    BuildRunFields
      { spec :=
          { build := { spec := none, name := none }
            output := none, paramValues := [], env := [], timeout := none } } =
      (resources.BuildRunNoRefOrSpec,
        "no build referenced or specified, either 'buildRef' or 'buildSpec' has to be set") := by
  decide

example :
    BuildRunFields
      { spec :=
          { build := { spec := some sampleSpec, name := some "b" }
            output := none, paramValues := [], env := [], timeout := none } } =
      (resources.BuildRunAmbiguousBuild,
        "fields 'buildRef' and 'buildSpec' are mutually exclusive") := by
  decide

example :
    BuildRunFields
      { spec :=
          { build := { spec := some sampleSpec, name := none }
            output := none, paramValues := [], env := [⟨"A", "B"⟩], timeout := none } } =
      (resources.BuildRunBuildFieldOverrideForbidden,
        "cannot use 'env' override and 'buildSpec' simultaneously") := by
  decide

end SanityChecks

section FieldConflict

open v1beta1 validate

/-- A BuildRun with neither an inlined spec nor a build reference, but all
override fields populated. -/
def brNeither : BuildRun :=
  { spec :=
      { build := { spec := none, name := none }
        output := some { image := "quay.io/other", pushSecret := none }
        paramValues := [⟨"p", "v"⟩], env := [⟨"E", "V"⟩], timeout := some 30 } }

/-- A BuildRun with both an inlined spec and a build reference. -/
def brBoth : BuildRun :=
  { spec :=
      { build := { spec := some sampleSpec, name := some "other-build" }
        output := none, paramValues := [], env := [], timeout := none } }

/-- A BuildRun with an inlined spec and an output override. -/
def brOutputOverride : BuildRun :=
  { spec :=
      { build := { spec := some sampleSpec, name := none }
        output := some { image := "quay.io/other", pushSecret := none }
        paramValues := [⟨"p", "v"⟩], env := [⟨"E", "V"⟩], timeout := some 30 } }

/-- A BuildRun with a build reference only, yet all override fields
populated. -/
def brRefWithOverrides : BuildRun :=
  { spec :=
      { build := { spec := none, name := some "some-build" }
        output := some { image := "quay.io/other", pushSecret := none }
        paramValues := [⟨"p", "v"⟩], env := [⟨"E", "V"⟩], timeout := some 30 } }

/-- C2: `BuildRunFields` applies its rules in a fixed order with first match
winning: (1) neither inline spec nor reference set yields `BuildRunNoRefOrSpec`;
(2) both set yields `BuildRunAmbiguousBuild` regardless of the override
contents; (3) with an inline spec and no reference, the first non-empty
override among output, paramValues, env, timeout, trigger yields
`BuildRunBuildFieldOverrideForbidden` with a message naming that field; and
(4) otherwise it returns the pair of empty strings. As a pure total Lean
function it performs no I/O, does not mutate its input and never fails. -/
theorem buildRunFields_rules (br : BuildRun) :
    (br.spec.build.spec = none → br.spec.build.name = none →
      BuildRunFields br = (resources.BuildRunNoRefOrSpec,
        "no build referenced or specified, either 'buildRef' or 'buildSpec' has to be set")) ∧
    (br.spec.build.spec.isSome → br.spec.build.name.isSome →
      BuildRunFields br = (resources.BuildRunAmbiguousBuild,
        "fields 'buildRef' and 'buildSpec' are mutually exclusive")) ∧
    (br.spec.build.spec.isSome → br.spec.build.name = none →
      br.spec.output.isSome →
      BuildRunFields br = (resources.BuildRunBuildFieldOverrideForbidden,
        "cannot use 'output' override and 'buildSpec' simultaneously")) ∧
    (br.spec.build.spec.isSome → br.spec.build.name = none →
      br.spec.output = none → br.spec.paramValues ≠ [] →
      BuildRunFields br = (resources.BuildRunBuildFieldOverrideForbidden,
        "cannot use 'paramValues' override and 'buildSpec' simultaneously")) ∧
    (br.spec.build.spec.isSome → br.spec.build.name = none →
      br.spec.output = none → br.spec.paramValues = [] → br.spec.env ≠ [] →
      BuildRunFields br = (resources.BuildRunBuildFieldOverrideForbidden,
        "cannot use 'env' override and 'buildSpec' simultaneously")) ∧
    (br.spec.build.spec.isSome → br.spec.build.name = none →
      br.spec.output = none → br.spec.paramValues = [] → br.spec.env = [] →
      br.spec.timeout.isSome →
      BuildRunFields br = (resources.BuildRunBuildFieldOverrideForbidden,
        "cannot use 'timeout' override and 'buildSpec' simultaneously")) ∧
    (∀ bs, br.spec.build.spec = some bs → br.spec.build.name = none →
      br.spec.output = none → br.spec.paramValues = [] → br.spec.env = [] →
      br.spec.timeout = none → bs.trigger.isSome →
      BuildRunFields br = (resources.BuildRunBuildFieldOverrideForbidden,
        "cannot use 'triggers' override in the 'BuildRun', only allowed in the 'Build'")) ∧
    (∀ bs, br.spec.build.spec = some bs → br.spec.build.name = none →
      br.spec.output = none → br.spec.paramValues = [] → br.spec.env = [] →
      br.spec.timeout = none → bs.trigger = none →
      BuildRunFields br = ("", "")) := by
  refine ⟨?_, ?_, ?_, ?_, ?_, ?_, ?_, ?_⟩
  · intro h1 h2
    simp [BuildRunFields, h1, h2]
  · intro h1 h2
    obtain ⟨bs, hbs⟩ := Option.isSome_iff_exists.mp h1
    simp [BuildRunFields, hbs, h2, Option.isSome_iff_exists.mp h2]
  · intro h1 h2 h3
    obtain ⟨bs, hbs⟩ := Option.isSome_iff_exists.mp h1
    simp [BuildRunFields, hbs, h2, h3]
  · intro h1 h2 h3 h4
    obtain ⟨bs, hbs⟩ := Option.isSome_iff_exists.mp h1
    simp [BuildRunFields, hbs, h2, h3, List.length_pos.mpr h4]
  · intro h1 h2 h3 h4 h5
    obtain ⟨bs, hbs⟩ := Option.isSome_iff_exists.mp h1
    simp [BuildRunFields, hbs, h2, h3, h4, List.length_pos.mpr h5]
  · intro h1 h2 h3 h4 h5 h6
    obtain ⟨bs, hbs⟩ := Option.isSome_iff_exists.mp h1
    simp [BuildRunFields, hbs, h2, h3, h4, h5, h6]
  · intro bs hbs h2 h3 h4 h5 h6 h7
    simp [BuildRunFields, hbs, h2, h3, h4, h5, h6, h7]
  · intro bs hbs h2 h3 h4 h5 h6 h7
    simp [BuildRunFields, hbs, h2, h3, h4, h5, h6, h7]

/-- C2 witness: on a BuildRun with neither reference nor inline spec the
checker reports `BuildRunNoRefOrSpec`, and on one with an inline spec plus
an output override it reports `BuildRunBuildFieldOverrideForbidden` naming
the output field. -/
theorem buildRunFields_rules_witness :
    BuildRunFields brNeither = (resources.BuildRunNoRefOrSpec,
      "no build referenced or specified, either 'buildRef' or 'buildSpec' has to be set") ∧
    BuildRunFields brOutputOverride = (resources.BuildRunBuildFieldOverrideForbidden,
      "cannot use 'output' override and 'buildSpec' simultaneously") :=
  ⟨(buildRunFields_rules brNeither).1 rfl rfl,
    (buildRunFields_rules brOutputOverride).2.2.1 (by decide) rfl (by decide)⟩

/-- C10: with a build reference set and no inline spec, `BuildRunFields`
reports no conflict at all, whatever the override fields hold — overrides
are forbidden only in combination with an inline spec. -/
theorem buildRunFields_ref_ignores_overrides (br : BuildRun) (n : String)
    (hspec : br.spec.build.spec = none) (hname : br.spec.build.name = some n) :
    BuildRunFields br = ("", "") := by
  simp [BuildRunFields, hspec, hname]

/-- C10 witness: a BuildRun referencing a build by name while carrying
non-empty output, paramValues, env and timeout overrides yields no
conflict. -/
theorem buildRunFields_ref_ignores_overrides_witness :
    BuildRunFields brRefWithOverrides = ("", "") :=
  buildRunFields_ref_ignores_overrides brRefWithOverrides "some-build" rfl rfl

end FieldConflict

namespace validation

/-!
Embedding of the qualified-name check of the external dependency
`k8s.io/apimachinery/pkg/util/validation`, which `SchedulerNameRef`
delegates to. Go byte lengths become `String.utf8ByteSize`; the anchored
regular expressions become character-class scans of the same languages.
-/

/-- `validation.EmptyError()`. -/
def EmptyError : String := "must be non-empty"

/-- `validation.MaxLenError(length)`. -/
def MaxLenError (length : Nat) : String :=
  "must be no more than " ++ toString length ++ " characters"

/-- `validation.RegexError(msg, fmt, examples...)`. -/
def RegexError (msg fmt : String) (examples : List String) : String :=
  match examples with
  | [] => msg ++ " (regex used for validation is '" ++ fmt ++ "')"
  | e :: rest =>
    msg ++ " (e.g. '" ++ e ++ "', " ++
      String.join (rest.map (fun x => "or '" ++ x ++ "', ")) ++
      "regex used for validation is '" ++ fmt ++ "')"

/-- `strings.Split` restricted to a single-character separator, embedded as
structural recursion over the character list (`Split("", sep)` is `[""]`,
like in Go). -/
def splitOnChar (sep : Char) : List Char → List (List Char)
  | [] => [[]]
  | c :: rest =>
    match splitOnChar sep rest with
    | [] => if c = sep then [[], []] else [[c]]
    | g :: gs => if c = sep then [] :: g :: gs else (c :: g) :: gs

/-- The Go byte length (`len`) of a string given as its character list. -/
def utf8Len (cs : List Char) : Nat := cs.foldr (fun c n => c.utf8Size + n) 0

/-- `[A-Za-z0-9]`, the `qnameCharFmt` character class. -/
def isQnameChar (c : Char) : Bool := c.isUpper || c.isLower || c.isDigit

/-- `[-A-Za-z0-9_.]`, the `qnameExtCharFmt` character class. -/
def isQnameExtChar (c : Char) : Bool := isQnameChar c || c = '-' || c = '_' || c = '.'

/-- `[a-z0-9]`, the character class ending a DNS-1123 label. -/
def isDNSLabelEdgeChar (c : Char) : Bool := c.isLower || c.isDigit

/-- `[-a-z0-9]`, the inner character class of a DNS-1123 label. -/
def isDNSLabelChar (c : Char) : Bool := isDNSLabelEdgeChar c || c = '-'

/-- Anchored match of `edge(inner*edge)?`: a non-empty string whose first
and last characters are in `edge` and whose middle characters are in
`inner` — the common shape of `qualifiedNameFmt` and `dns1123LabelFmt`. -/
def matchesNameFmt (edge inner : Char → Bool) (cs : List Char) : Bool :=
  match cs with
  | [] => false
  | c :: rest =>
    match rest.getLast? with
    | none => edge c
    | some l => edge c && edge l && rest.dropLast.all inner

/-- `validation.dns1123SubdomainFmt`. -/
def dns1123SubdomainFmt : String :=
  "[a-z0-9]([-a-z0-9]*[a-z0-9])?(\\.[a-z0-9]([-a-z0-9]*[a-z0-9])?)*"

/-- `validation.dns1123SubdomainErrorMsg`. -/
def dns1123SubdomainErrorMsg : String :=
  "a lowercase RFC 1123 subdomain must consist of lower case alphanumeric characters, '-' or '.', and must start and end with an alphanumeric character"

/-- `validation.DNS1123SubdomainMaxLength`. -/
def DNS1123SubdomainMaxLength : Nat := 253

/-- `validation.IsDNS1123Subdomain`: the anchored subdomain regex matches
exactly when every dot-separated label matches `dns1123LabelFmt`. -/
def IsDNS1123Subdomain (value : String) : List String :=
  (if utf8Len value.toList > DNS1123SubdomainMaxLength
    then [MaxLenError DNS1123SubdomainMaxLength] else []) ++
  (if (splitOnChar '.' value.toList).all (matchesNameFmt isDNSLabelEdgeChar isDNSLabelChar)
    then []
    else [RegexError dns1123SubdomainErrorMsg dns1123SubdomainFmt ["example.com"]])

/-- `validation.qualifiedNameErrMsg`. -/
def qualifiedNameErrMsg : String :=
  "must consist of alphanumeric characters, '-', '_' or '.', and must start and end with an alphanumeric character"

/-- `validation.qualifiedNameFmt`. -/
def qualifiedNameFmt : String := "([A-Za-z0-9][-A-Za-z0-9_.]*)?[A-Za-z0-9]"

/-- `validation.qualifiedNameMaxLength`. -/
def qualifiedNameMaxLength : Nat := 63

/-- The regex-violation text shared by the name-part and the
three-or-more-parts errors of `IsQualifiedName`. -/
def qualifiedNameRegexError : String :=
  RegexError qualifiedNameErrMsg qualifiedNameFmt ["MyName", "my.name", "123-abc"]

/-- The errors `IsQualifiedName` collects about the name part. -/
def namePartErrors (name : List Char) : List String :=
  (if utf8Len name = 0 then ["name part " ++ EmptyError]
   else if utf8Len name > qualifiedNameMaxLength
    then ["name part " ++ MaxLenError qualifiedNameMaxLength] else []) ++
  (if matchesNameFmt isQnameChar isQnameExtChar name then []
   else ["name part " ++ qualifiedNameRegexError])

/-- `validation.IsQualifiedName`: splits on `/` into an optional DNS-1123
subdomain prefix and a qualified name part, collecting error strings. -/
def IsQualifiedName (value : String) : List String :=
  match splitOnChar '/' value.toList with
  | [name] => namePartErrors name
  | [prefixPart, name] =>
    (if utf8Len prefixPart = 0 then ["prefix part " ++ EmptyError]
     else (IsDNS1123Subdomain ⟨prefixPart⟩).map (fun m => "prefix part " ++ m)) ++
      namePartErrors name
  | _ =>
    ["a qualified name " ++ qualifiedNameRegexError ++
      " with an optional DNS subdomain prefix and '/' (e.g. 'example.com/MyName')"]

end validation

namespace validate

open v1beta1

/-- A validator of the chain (`BuildPath.ValidatePath`): it may rewrite the
Build's status and may return a technical error. -/
abbrev Validator := Build → Build × Option String

/-- `validate.All` (pkg/validate/validate.go): runs all given validations
in the order given and exits at the first technical error. -/
def All : List Validator → Build → Build × Option String
  | [], b => (b, none)
  | v :: vs, b =>
    match v b with
    | (b', some e) => (b', some e)
    | (b', none) => All vs b'

/-- `SchedulerNameRef.ValidatePath` (src/unnamed/part_000): when
spec.schedulerName is non-empty and `IsQualifiedName` reports errors, sets
status.reason to `SchedulerNameNotValid` and status.message to the errors
joined with ", "; always returns nil. The Go receiver struct holding the
Build pointer is inlined as the Build argument. -/
def SchedulerNameRef.ValidatePath (b : Build) : Build × Option String :=
  if b.spec.schedulerName ≠ "" then
    let errs := validation.IsQualifiedName b.spec.schedulerName
    if errs.length > 0 then
      ({ b with status :=
          { reason := some SchedulerNameNotValid
            message := some (String.intercalate ", " errs) } }, none)
    else (b, none)
  else (b, none)

/-- Lexicographic order on character lists (Go's byte-wise string order,
identical on the ASCII secret names at hand). -/
def charListLe : List Char → List Char → Bool
  | [], _ => true
  | _ :: _, [] => false
  | a :: as, b :: bs => if a = b then charListLe as bs else decide (a < b)

/-- Alphabetical (lexicographic) order on strings. -/
def stringLe (s t : String) : Bool := charListLe s.toList t.toList

/-- Insert a string into an already sorted list, keeping it sorted. -/
def insertSorted (s : String) : List String → List String
  | [] => [s]
  | t :: ts => if stringLe s t then s :: t :: ts else t :: insertSorted s ts

/-- Insertion sort of strings in alphabetical (lexicographic) order. -/
def sortStrings (l : List String) : List String := l.foldr insertSorted []

/-- Modelled from the spec: the `Credentials` validator's implementation is
not among the repository files provided (only the build reconciler test
exercising it). Per spec §4.1 it checks that the referenced clone/push
secrets exist; a single missing secret yields
`SpecSourceSecretRefNotFound` / `SpecOutputSecretRefNotFound`, both missing
yields `MultipleSecretRefNotFound` with both names joined, ordered
deterministically (alphabetically; the test expects
"missing secrets are non-existing-output,non-existing-source"). Semantic
failures go to status, nil is returned; the cluster's secret-existence
lookup is modelled by the list of existing secret names. -/
def Credentials.ValidatePath (existingSecrets : List String) (b : Build) :
    Build × Option String :=
  let missingClone :=
    match b.spec.source.git.cloneSecret with
    | some s => if existingSecrets.contains s then none else some s
    | none => none
  let missingPush :=
    match b.spec.output.pushSecret with
    | some s => if existingSecrets.contains s then none else some s
    | none => none
  match missingClone, missingPush with
  | some c, some p =>
    ({ b with status :=
        { reason := some MultipleSecretRefNotFound
          message := some ("missing secrets are " ++
            String.intercalate "," (sortStrings [c, p])) } }, none)
  | some c, none =>
    ({ b with status :=
        { reason := some SpecSourceSecretRefNotFound
          message := some ("referenced secret " ++ c ++ " not found") } }, none)
  | none, some p =>
    ({ b with status :=
        { reason := some SpecOutputSecretRefNotFound
          message := some ("referenced secret " ++ p ++ " not found") } }, none)
  | none, none => (b, none)

end validate

section ChainSanityChecks

open v1beta1 validate

example : validation.IsQualifiedName "-invalid-" ≠ [] := by decide

example : validation.IsQualifiedName "valid-name" = [] := by decide

example : validation.IsQualifiedName "example.com/MyName" = [] := by decide

example : sortStrings ["non-existing-source", "non-existing-output"] =
    ["non-existing-output", "non-existing-source"] := by decide

end ChainSanityChecks

namespace validate

open v1beta1

/-- Chain lemma: running an appended chain first runs the left part; only
when it finishes without a technical error does the right part run, on the
state the left part produced. -/
theorem All_append (vs ws : List Validator) (b : Build) :
    All (vs ++ ws) b =
      match All vs b with
      | (b', some e) => (b', some e)
      | (b', none) => All ws b' := by
  induction vs generalizing b with
  | nil => simp [All]
  | cons v vs ih =>
    rcases h : v b with ⟨b', e⟩
    cases e with
    | none => simp [All, h, ih]
    | some err => simp [All, h]

/-- Helper: `SchedulerNameRef.ValidatePath` never returns a technical
error. -/
theorem schedulerNameRef_no_error (b : Build) :
    (SchedulerNameRef.ValidatePath b).2 = none := by
  unfold SchedulerNameRef.ValidatePath
  by_cases h : b.spec.schedulerName = ""
  · simp [h]
  · by_cases h2 : (validation.IsQualifiedName b.spec.schedulerName).length > 0
    · simp [h, h2]
    · simp [h, h2]

/-- Helper: on a non-empty scheduler name that fails qualified-name
validation, `SchedulerNameRef.ValidatePath` writes the
`SchedulerNameNotValid` reason and the joined errors, whatever the previous
status was. -/
theorem schedulerNameRef_sets_reason (b : Build)
    (h1 : b.spec.schedulerName ≠ "")
    (h2 : validation.IsQualifiedName b.spec.schedulerName ≠ []) :
    (SchedulerNameRef.ValidatePath b).1.status.reason = some SchedulerNameNotValid ∧
    (SchedulerNameRef.ValidatePath b).1.status.message =
      some (String.intercalate ", " (validation.IsQualifiedName b.spec.schedulerName)) := by
  have hlen : (validation.IsQualifiedName b.spec.schedulerName).length > 0 :=
    List.length_pos.mpr h2
  constructor <;> simp [SchedulerNameRef.ValidatePath, h1, hlen]

/-- A Build whose referenced clone and push secrets are absent and whose
scheduler name is syntactically invalid. -/
def credBuildBadScheduler : Build :=
  { name := "buildah-golang-build"
    spec :=
      { source := { git := { url := "https://github.com/example/repo", cloneSecret := some "non-existing-source" } }
        output := { image := "quay.io/example/image", pushSecret := some "non-existing-output" }
        paramValues := [], env := [], timeout := none
        schedulerName := "-invalid-scheduler-"
        trigger := none }
    status := { reason := none, message := none } }

/-- A Build that passes both the Credentials and the SchedulerName
validators. -/
def goodBuild : Build :=
  { name := "buildah-golang-build"
    spec :=
      { source := { git := { url := "https://github.com/example/repo", cloneSecret := none } }
        output := { image := "quay.io/example/image", pushSecret := none }
        paramValues := [], env := [], timeout := none
        schedulerName := ""
        trigger := none }
    status := { reason := none, message := none } }

/-- A validator that always fails with a technical error, as one whose
cluster client is unreachable would. -/
def unreachableValidator : Validator := fun b => (b, some "remote repository unreachable")

/-- C1 counterexample: validators do not check for an already-set status
reason. Running `All` with the Credentials validator (which sets
`MultipleSecretRefNotFound` here) followed by the SchedulerName validator
on a build whose scheduler name is syntactically invalid ends with reason
`SchedulerNameNotValid`: the later validator overwrote the earlier
semantic failure. -/
theorem schedulerName_overwrites_reason_cex :
    (All [Credentials.ValidatePath []] credBuildBadScheduler).1.status.reason =
      some MultipleSecretRefNotFound ∧
    (All [Credentials.ValidatePath [], SchedulerNameRef.ValidatePath]
        credBuildBadScheduler).1.status.reason = some SchedulerNameNotValid ∧
    some SchedulerNameNotValid ≠ some MultipleSecretRefNotFound := by
  refine ⟨by decide, by decide, by decide⟩

/-- C1 amended: the chain runner short-circuits only on technical errors
and validators perform no already-set-reason check; the last semantic
failure in chain order wins. In particular, after any error-free prefix of
validators, appending the SchedulerName validator overwrites whatever
status reason the prefix set, whenever the resulting build's scheduler
name is non-empty and fails qualified-name validation. -/
theorem schedulerName_last_writer_wins (vs : List Validator) (b : Build)
    (hok : (All vs b).2 = none)
    (hname : (All vs b).1.spec.schedulerName ≠ "")
    (hinvalid : validation.IsQualifiedName (All vs b).1.spec.schedulerName ≠ []) :
    (All (vs ++ [SchedulerNameRef.ValidatePath]) b).1.status.reason =
      some SchedulerNameNotValid := by
  rw [All_append]
  rcases h : All vs b with ⟨s, e⟩
  rw [h] at hok hname hinvalid
  cases hok
  have hs := schedulerNameRef_sets_reason s hname hinvalid
  rcases h2 : SchedulerNameRef.ValidatePath s with ⟨s', e'⟩
  have he' : e' = none := by
    have := schedulerNameRef_no_error s
    rw [h2] at this
    exact this
  subst he'
  rw [h2] at hs
  simpa [All, h2] using hs.1

/-- C1 amended witness: on the concrete build with both secrets missing and
an invalid scheduler name, the Credentials-then-SchedulerName chain ends
with reason `SchedulerNameNotValid`. -/
theorem schedulerName_last_writer_wins_witness :
    (All ([Credentials.ValidatePath []] ++ [SchedulerNameRef.ValidatePath])
        credBuildBadScheduler).1.status.reason = some SchedulerNameNotValid :=
  schedulerName_last_writer_wins [Credentials.ValidatePath []] credBuildBadScheduler
    (by decide) (by decide) (by decide)

/-- C3: `All` runs the given validators strictly in the order given: after
an error-free prefix, the first validator returning a technical error
determines the whole result (state and returned error), independently of
every validator after it, which therefore is never invoked; and a chain
whose validators never return errors returns nil. -/
theorem All_runs_in_order_and_stops_at_first_error :
    (∀ (pre post : List Validator) (v : Validator) (b : Build),
      (All pre b).2 = none → ((v (All pre b).1).2).isSome →
      All (pre ++ v :: post) b = v (All pre b).1) ∧
    (∀ (vs : List Validator) (b : Build),
      (∀ v ∈ vs, ∀ s, (v s).2 = none) → (All vs b).2 = none) := by
  constructor
  · intro pre post v b hpre herr
    rw [All_append]
    rcases h : All pre b with ⟨s, e⟩
    rw [h] at hpre herr
    cases hpre
    rcases h2 : v s with ⟨s', e'⟩
    rw [h2] at herr
    rcases Option.isSome_iff_exists.mp herr with ⟨err, he⟩
    subst he
    simp [All, h2]
  · intro vs b hnone
    induction vs generalizing b with
    | nil => simp [All]
    | cons v vs ih =>
      rcases h : v b with ⟨b', e⟩
      have he : e = none := by
        have := hnone v (by simp) b
        rw [h] at this
        exact this
      subst he
      simpa [All, h] using ih b' (fun w hw s => hnone w (by simp [hw]) s)

/-- C3 witness: in a chain SchedulerName → unreachable → Credentials run on
a well-formed build, the chain stops at the technical error of the middle
validator; the Credentials validator after it is never reached and the
build is left untouched. -/
theorem All_stops_witness :
    All [SchedulerNameRef.ValidatePath, unreachableValidator, Credentials.ValidatePath []]
        goodBuild = (goodBuild, some "remote repository unreachable") := by
  have h := All_runs_in_order_and_stops_at_first_error.1
    [SchedulerNameRef.ValidatePath] [Credentials.ValidatePath []]
    unreachableValidator goodBuild (by decide) (by decide)
  exact h.trans (by decide)

/-- C8: the SchedulerName validator reports semantic failures through
status mutation only: `ValidatePath` returns nil on every input, and on a
build whose spec.schedulerName is non-empty and fails qualified-name
syntax validation it sets status.reason to `SchedulerNameNotValid` and
status.message to the joined validation errors. -/
theorem schedulerName_semantic_failure_status_only (b : Build) :
    (SchedulerNameRef.ValidatePath b).2 = none ∧
    (b.spec.schedulerName ≠ "" →
      validation.IsQualifiedName b.spec.schedulerName ≠ [] →
      (SchedulerNameRef.ValidatePath b).1.status.reason = some SchedulerNameNotValid ∧
      (SchedulerNameRef.ValidatePath b).1.status.message =
        some (String.intercalate ", " (validation.IsQualifiedName b.spec.schedulerName))) :=
  ⟨schedulerNameRef_no_error b, fun h1 h2 => schedulerNameRef_sets_reason b h1 h2⟩

/-- C8 witness: on the concrete build with scheduler name
"-invalid-scheduler-" the validator returns nil and sets the
`SchedulerNameNotValid` reason with the joined error text. -/
theorem schedulerName_semantic_failure_status_only_witness :
    (SchedulerNameRef.ValidatePath credBuildBadScheduler).2 = none ∧
    (SchedulerNameRef.ValidatePath credBuildBadScheduler).1.status.reason =
      some SchedulerNameNotValid ∧
    (SchedulerNameRef.ValidatePath credBuildBadScheduler).1.status.message =
      some (String.intercalate ", " (validation.IsQualifiedName "-invalid-scheduler-")) := by
  obtain ⟨h1, h2⟩ := schedulerName_semantic_failure_status_only credBuildBadScheduler
  obtain ⟨h3, h4⟩ := h2 (by decide) (by decide)
  exact ⟨h1, h3, h4⟩

/-- C9: on every Build referencing both a clone secret and a push secret
neither of which exists, the Credentials validator sets reason
`MultipleSecretRefNotFound` and a message listing both missing names in
alphabetical order, returning no technical error. -/
theorem credentials_both_missing (existing : List String) (b : Build) (c p : String)
    (hc : b.spec.source.git.cloneSecret = some c)
    (hp : b.spec.output.pushSecret = some p)
    (hcm : existing.contains c = false)
    (hpm : existing.contains p = false) :
    (Credentials.ValidatePath existing b).1.status.reason =
      some MultipleSecretRefNotFound ∧
    (Credentials.ValidatePath existing b).1.status.message =
      some ("missing secrets are " ++
        String.intercalate "," (if stringLe c p then [c, p] else [p, c])) ∧
    (Credentials.ValidatePath existing b).2 = none := by
  have hs : sortStrings [c, p] = if stringLe c p then [c, p] else [p, c] := by
    simp [sortStrings, insertSorted]
  have hcm' : c ∉ existing := by simpa using hcm
  have hpm' : p ∉ existing := by simpa using hpm
  refine ⟨?_, ?_, ?_⟩ <;>
    simp [Credentials.ValidatePath, hc, hp, hcm', hpm', hs]

/-- C9 witness: clone secret "non-existing-source" and push secret
"non-existing-output", neither existing, yield reason
`MultipleSecretRefNotFound` and exactly the message
"missing secrets are non-existing-output,non-existing-source". -/
theorem credentials_both_missing_witness :
    (Credentials.ValidatePath [] credBuildBadScheduler).1.status.reason =
      some MultipleSecretRefNotFound ∧
    (Credentials.ValidatePath [] credBuildBadScheduler).1.status.message =
      some "missing secrets are non-existing-output,non-existing-source" := by
  obtain ⟨h1, h2, h3⟩ := credentials_both_missing [] credBuildBadScheduler
    "non-existing-source" "non-existing-output" rfl rfl rfl rfl
  refine ⟨h1, ?_⟩
  rw [h2]
  decide

end validate

namespace tekton

/-- `v1beta1.PipelineResourceResult` of the pipeline engine: a key/value
pair emitted in a step's termination message. -/
structure PipelineResourceResult where
  key : String
  value : String
deriving Repr, DecidableEq

/-- Modelled from the spec: the parse outcome of a step's termination
message. The wire format (a JSON array of key/value objects) is produced
by the external execution engine; the embedding keeps the outcome of
`json.Unmarshal` abstractly: the message may be absent (the step never
terminated or carried no message), present but not parsable as such an
array, or parsed into its entries. -/
inductive TerminationMessage where
  | absent
  | unparsable
  | parsed (results : List PipelineResourceResult)
deriving Repr, DecidableEq

/-- `v1beta1.StepState`: the step's termination information. -/
structure StepState where
  terminated : TerminationMessage
deriving Repr, DecidableEq

/-- A knative `apis.Condition`: type, tri-state status and reason. -/
structure Condition where
  type : String
  status : String
  reason : String
deriving Repr, DecidableEq

/-- The status of a `TaskRun`: its conditions and step states. -/
structure TaskRunStatus where
  conditions : List Condition
  steps : List StepState
deriving Repr, DecidableEq

/-- A pipeline-engine `TaskRun` (the execution resource). -/
structure TaskRun where
  status : TaskRunStatus
deriving Repr, DecidableEq

/-- `GetCondition(apis.ConditionSucceeded)`: the first condition of type
"Succeeded", if any. -/
def TaskRun.succeededCondition (tr : TaskRun) : Option Condition :=
  tr.status.conditions.find? (fun c => c.type = "Succeeded")

/-- A pipeline-engine `Step`: stable name, container image, arguments. -/
structure Step where
  name : String
  image : String
  args : List String
deriving Repr, DecidableEq

/-- A pipeline-engine `TaskSpec`: the ordered step list of the template. -/
structure TaskSpec where
  steps : List Step
deriving Repr, DecidableEq

end tekton

namespace v1alpha1

/-- The default `spec.source` of a v1alpha1 Build: a git URL with optional
credentials. -/
structure GitSource where
  url : String
  credentials : Option String
deriving Repr, DecidableEq

/-- An auxiliary `spec.sources` entry (`BuildSource`); today HTTP-only:
a name and a URL. -/
structure BuildSource where
  name : String
  url : String
deriving Repr, DecidableEq

/-- The v1alpha1 build spec fields the pipeline step compiler reads:
the default git source and the optional auxiliary source list
(`Sources *[]BuildSource`). -/
structure BuildSpec where
  source : GitSource
  sources : Option (List BuildSource)
deriving Repr, DecidableEq

/-- A v1alpha1 `Build` resource. -/
structure Build where
  spec : BuildSpec
deriving Repr, DecidableEq

/-- The failure record extracted from execution output
(`BuildRun.Status.Failure`). -/
structure Failure where
  reason : String
  message : String
deriving Repr, DecidableEq

/-- The v1alpha1 BuildRun status: the optional failure record. -/
structure BuildRunStatus where
  failure : Option Failure
deriving Repr, DecidableEq

/-- A v1alpha1 `BuildRun` resource (only its status matters to the result
extractor). -/
structure BuildRun where
  status : BuildRunStatus
deriving Repr, DecidableEq

end v1alpha1

namespace config

/-- `config.Config`: the operator configuration handed to the step
builders; only the container images matter to them. -/
structure Config where
  gitContainerImage : String
  httpContainerImage : String
deriving Repr, DecidableEq

end config

namespace sources

open tekton v1alpha1 config

/-- Modelled from the spec: the step builder for a git source —
`sources.AppendGitStep`'s per-kind builder is not among the repository
files provided; per spec §4.3 it is a pure function from (config,
descriptor) to a Step value, carrying the given stable step name. -/
def GitStep (cfg : Config) (source : GitSource) (name : String) : Step :=
  { name := name, image := cfg.gitContainerImage, args := [source.url] }

/-- Modelled from the spec: the step builder for an auxiliary HTTP source;
a pure function from (config, descriptor) to a Step value, with the
deterministic step name taken from the source's name. -/
def HttpStep (cfg : Config) (source : BuildSource) : Step :=
  { name := source.name, image := cfg.httpContainerImage, args := [source.url] }

/-- Modelled from the spec: `sources.AppendGitStep` is not among the
repository files provided; per spec §4.3 it appends exactly one step for
the default git source to the task template. -/
def AppendGitStep (cfg : Config) (taskSpec : TaskSpec) (source : GitSource)
    (name : String) : TaskSpec :=
  { taskSpec with steps := taskSpec.steps ++ [GitStep cfg source name] }

/-- Modelled from the spec: `sources.AppendHttpStep` is not among the
repository files provided; per spec §4.3 it appends exactly one step for
an auxiliary HTTP source to the task template. -/
def AppendHttpStep (cfg : Config) (taskSpec : TaskSpec) (source : BuildSource) :
    TaskSpec :=
  { taskSpec with steps := taskSpec.steps ++ [HttpStep cfg source] }

end sources

namespace resources

open tekton v1alpha1 config

/-- `resources.AmendTaskSpecWithSources` (src/unnamed/part_002): appends
the step for `spec.source` (always git, stable name "default") and then,
when `spec.sources` is set, one step per auxiliary source in declaration
order. The Go in-place mutation of the task spec becomes a fold returning
the amended spec. -/
def AmendTaskSpecWithSources (cfg : Config) (taskSpec : TaskSpec) (build : Build) :
    TaskSpec :=
  let ts := sources.AppendGitStep cfg taskSpec build.spec.source "default"
  match build.spec.sources with
  | some srcs => srcs.foldl (fun acc s => sources.AppendHttpStep cfg acc s) ts
  | none => ts

/-- The fixed prefix of the well-known result keys
(`prefixParamsResultsVolumes`). -/
def prefixParamsResultsVolumes : String := "shp"

/-- `resultErrorReason`, the suffix of the error-reason key. -/
def resultErrorReason : String := "result-error-reason"

/-- `resultErrorMessage`, the suffix of the error-message key. -/
def resultErrorMessage : String := "result-error-message"

/-- The well-known error-reason key: the fixed prefix concatenated with
"-result-error-reason". -/
def errorReasonKey : String := prefixParamsResultsVolumes ++ "-" ++ resultErrorReason

/-- The well-known error-message key: the fixed prefix concatenated with
"-result-error-message". -/
def errorMessageKey : String := prefixParamsResultsVolumes ++ "-" ++ resultErrorMessage

/-- First value stored under a key in a result entry list; unrelated keys
are ignored. -/
def lookupResult : List PipelineResourceResult → String → Option String
  | [], _ => none
  | r :: rs, k => if r.key = k then some r.value else lookupResult rs k

/-- Modelled from the spec: the failure a single step surfaces — its
termination message must parse as a result-entry array holding both
well-known keys; otherwise (absent or unparsable message, or either key
missing) nothing is extracted. -/
def extractFromStep (step : StepState) : Option Failure :=
  match step.terminated with
  | .parsed results =>
    match lookupResult results errorReasonKey, lookupResult results errorMessageKey with
    | some r, some m => some { reason := r, message := m }
    | _, _ => none
  | _ => none

/-- Modelled from the spec: whether the completion condition is exactly
{type=Succeeded, status=False, reason=Failed}. -/
def isFailedCondition (tr : TaskRun) : Bool :=
  match tr.succeededCondition with
  | some c => c.status = "False" && c.reason = "Failed"
  | none => false

/-- Modelled from the spec: `resources.UpdateBuildRunUsingTaskFailures` —
its implementation is not among the repository files provided (only its
ginkgo test, src/unnamed/part_001). Per spec §4.4: when the completion
condition is exactly {type=Succeeded, status=False, reason=Failed}, scan
the steps in order and take the failure of the first step whose
termination message parses and holds both well-known keys, writing it to
the BuildRun's status; in every other case (including malformed input,
which is swallowed) the status is left untouched. The Go signature
returns nothing; the embedding returns the updated BuildRun. -/
def UpdateBuildRunUsingTaskFailures (buildRun : BuildRun) (taskRun : TaskRun) :
    BuildRun :=
  if isFailedCondition taskRun then
    match taskRun.status.steps.findSome? extractFromStep with
    | some f => { buildRun with status := { failure := some f } }
    | none => buildRun
  else buildRun

/-- Appending the HTTP step for each source in turn appends exactly the
corresponding step list, in declaration order. -/
theorem foldl_appendHttpStep (cfg : config.Config) (srcs : List BuildSource)
    (ts : TaskSpec) :
    (srcs.foldl (fun acc s => sources.AppendHttpStep cfg acc s) ts).steps =
      ts.steps ++ srcs.map (sources.HttpStep cfg) := by
  induction srcs generalizing ts with
  | nil => simp
  | cons s ss ih =>
    simp only [List.foldl_cons, List.map_cons]
    rw [ih]
    simp [sources.AppendHttpStep]

/-- C4: the pipeline step compiler appends to the template exactly one
step for the default git source with stable name "default" first, then one
step per auxiliary source in declaration order: the amended step list is
the old one followed by the default git step and the image of the
auxiliary list under the HTTP step builder (so a default source and two
auxiliary sources [X, Y] yield exactly three appended steps in the order
default, X, Y). -/
theorem amendTaskSpecWithSources_steps (cfg : config.Config) (ts : TaskSpec)
    (b : Build) :
    (AmendTaskSpecWithSources cfg ts b).steps =
      ts.steps ++ [sources.GitStep cfg b.spec.source "default"] ++
        (b.spec.sources.getD []).map (sources.HttpStep cfg) ∧
    (AmendTaskSpecWithSources cfg ts b).steps.map Step.name =
      ts.steps.map Step.name ++ ["default"] ++
        (b.spec.sources.getD []).map BuildSource.name := by
  have h : (AmendTaskSpecWithSources cfg ts b).steps =
      ts.steps ++ [sources.GitStep cfg b.spec.source "default"] ++
        (b.spec.sources.getD []).map (sources.HttpStep cfg) := by
    unfold AmendTaskSpecWithSources
    cases hs : b.spec.sources with
    | none => simp [sources.AppendGitStep]
    | some srcs => simp [foldl_appendHttpStep, sources.AppendGitStep]
  refine ⟨h, ?_⟩
  rw [h]
  simp [sources.GitStep, sources.HttpStep, Function.comp]

/-- The compiled template for a default git source and the two auxiliary
HTTP sources X and Y of the claim, starting from an empty template. -/
def twoSourcesBuild : Build :=
  { spec :=
      { source := { url := "https://github.com/example/repo", credentials := none }
        sources := some [{ name := "X", url := "http://example.com/x" },
                         { name := "Y", url := "http://example.com/y" }] } }

example :
    ((AmendTaskSpecWithSources { gitContainerImage := "git", httpContainerImage := "http" }
        { steps := [] } twoSourcesBuild).steps.map Step.name) = ["default", "X", "Y"] := by
  decide

/-- C5: the result extractor leaves the failure record untouched — and
raises nothing, being a total function into the updated resource — unless
the completion condition is exactly {type=Succeeded, status=False,
reason=Failed} and some step's termination message parses with both
well-known keys: a non-failed condition (succeeded, other type,
unrecognized reason, absent), or every step's message being absent,
unparsable or missing a key, leaves the BuildRun unchanged. -/
theorem extractor_noop_unless_failed (br : BuildRun) (tr : TaskRun)
    (h : isFailedCondition tr = false ∨
      ∀ s ∈ tr.status.steps, extractFromStep s = none) :
    UpdateBuildRunUsingTaskFailures br tr = br := by
  unfold UpdateBuildRunUsingTaskFailures
  rcases h with h | h
  · simp [h]
  · have hn : tr.status.steps.findSome? extractFromStep = none :=
      List.findSome?_eq_none_iff.mpr h
    simp [hn]

/-- A BuildRun with no failure recorded. -/
def freshBuildRun : BuildRun := { status := { failure := none } }

/-- A TaskRun that succeeded (condition Succeeded with empty status and
reason, as in the green test). -/
def greenTaskRun : TaskRun :=
  { status := { conditions := [{ type := "Succeeded", status := "True", reason := "Succeeded" }]
                steps := [{ terminated := .parsed [⟨errorReasonKey, "v1"⟩, ⟨errorMessageKey, "v2"⟩] }] } }

/-- A TaskRun whose Succeeded condition carries the unknown reason
"random". -/
def unknownReasonTaskRun : TaskRun :=
  { status := { conditions := [{ type := "Succeeded", status := "False", reason := "random" }]
                steps := [{ terminated := .parsed [⟨errorReasonKey, "v1"⟩, ⟨errorMessageKey, "v2"⟩] }] } }

/-- A failed TaskRun whose only step carries no error reason or message,
just an unrelated entry (the second test of src/unnamed/part_001). -/
def noKeysTaskRun : TaskRun :=
  { status := { conditions := [{ type := "Succeeded", status := "False", reason := "Failed" }]
                steps := [{ terminated := .parsed [⟨"unrelated", "unrelated"⟩] }] } }

/-- C5 witness: a succeeded condition, an unknown-reason condition and a
failed TaskRun without the well-known keys all leave the BuildRun
untouched. -/
theorem extractor_noop_unless_failed_witness :
    UpdateBuildRunUsingTaskFailures freshBuildRun greenTaskRun = freshBuildRun ∧
    UpdateBuildRunUsingTaskFailures freshBuildRun unknownReasonTaskRun = freshBuildRun ∧
    UpdateBuildRunUsingTaskFailures freshBuildRun noKeysTaskRun = freshBuildRun :=
  ⟨extractor_noop_unless_failed freshBuildRun greenTaskRun (Or.inl (by decide)),
    extractor_noop_unless_failed freshBuildRun unknownReasonTaskRun (Or.inl (by decide)),
    extractor_noop_unless_failed freshBuildRun noKeysTaskRun (Or.inr (by decide))⟩

/-- C6: on a failed execution resource ({Succeeded=False, reason=Failed})
whose steps, after any steps surfacing nothing, hold one whose termination
message parses into entries carrying value v1 under the error-reason key
and v2 under the error-message key (unrelated entries ignored), the
extractor sets the failure record {reason: v1, message: v2} on the
BuildRun's status. -/
theorem extractor_sets_failure (br : BuildRun) (tr : TaskRun)
    (pre post : List StepState) (s : StepState)
    (results : List PipelineResourceResult) (v1 v2 : String)
    (hsteps : tr.status.steps = pre ++ s :: post)
    (hpre : ∀ p ∈ pre, extractFromStep p = none)
    (hterm : s.terminated = .parsed results)
    (hr : lookupResult results errorReasonKey = some v1)
    (hm : lookupResult results errorMessageKey = some v2)
    (hcond : isFailedCondition tr = true) :
    (UpdateBuildRunUsingTaskFailures br tr).status.failure =
      some { reason := v1, message := v2 } := by
  have hstep : extractFromStep s = some { reason := v1, message := v2 } := by
    simp [extractFromStep, hterm, hr, hm]
  have hfind : ∀ (l : List StepState), (∀ p ∈ l, extractFromStep p = none) →
      List.findSome? extractFromStep (l ++ s :: post) =
        some { reason := v1, message := v2 } := by
    intro l
    induction l with
    | nil =>
      intro _
      simp [List.findSome?_cons, hstep]
    | cons a as ih =>
      intro hl
      have ha : extractFromStep a = none := hl a (by simp)
      simp only [List.cons_append, List.findSome?_cons, ha]
      exact ih (fun p hp => hl p (by simp [hp]))
  have hfind' : tr.status.steps.findSome? extractFromStep =
      some { reason := v1, message := v2 } := by
    rw [hsteps]
    exact hfind pre hpre
  simp [UpdateBuildRunUsingTaskFailures, hcond, hfind']

/-- The result entries of the first test of src/unnamed/part_001: the
error reason "val1", the error message "val2" and an unrelated entry. -/
def redResults : List PipelineResourceResult :=
  [⟨errorReasonKey, "val1"⟩, ⟨errorMessageKey, "val2"⟩, ⟨"unrelated", "unrelated"⟩]

/-- The failed step carrying `redResults` in its termination message. -/
def redStep : StepState := { terminated := TerminationMessage.parsed redResults }

/-- The failed TaskRun of the first test of src/unnamed/part_001. -/
def redTaskRun : TaskRun :=
  { status := { conditions := [{ type := "Succeeded", status := "False", reason := "Failed" }]
                steps := [redStep] } }

/-- C6 witness: the failed TaskRun of the test yields
failure {reason: "val1", message: "val2"} despite the unrelated entry. -/
theorem extractor_sets_failure_witness :
    (UpdateBuildRunUsingTaskFailures freshBuildRun redTaskRun).status.failure =
      some { reason := "val1", message := "val2" } :=
  extractor_sets_failure freshBuildRun redTaskRun [] [] redStep redResults
    "val1" "val2" rfl (by simp) rfl (by decide) (by decide) (by decide)

/-- C7: the result extractor is idempotent — applying it twice to the same
terminated execution resource leaves exactly the state (and so the failure
record) of applying it once. -/
theorem extractor_idempotent (br : BuildRun) (tr : TaskRun) :
    UpdateBuildRunUsingTaskFailures (UpdateBuildRunUsingTaskFailures br tr) tr =
      UpdateBuildRunUsingTaskFailures br tr := by
  by_cases h : isFailedCondition tr
  · cases hf : tr.status.steps.findSome? extractFromStep with
    | none => simp [UpdateBuildRunUsingTaskFailures, h, hf]
    | some f => simp [UpdateBuildRunUsingTaskFailures, h, hf]
  · simp [UpdateBuildRunUsingTaskFailures, h]

end resources
